import Mathlib

/-!
Shallow embedding of the GoForthAndProsper Forth-like virtual machine
(src/stack.rs, src/dictionary.rs, src/id.rs, src/context.rs) and proofs
about the behaviour its specification claims.

Conventions of the embedding:
* Rust `i32` values are modelled as `Int`; arithmetic that can overflow is
  made explicit with `wrap32` (two's-complement wrapping, the release-build
  semantics of `+`, `-`, `*`); `i32` division overflow (`i32::MIN / -1`)
  unconditionally aborts in Rust and is modelled as a panic outcome.
* Rust `usize` casts are modelled on a 64-bit target: `i32 as usize`
  sign-extends, `usize as i32` truncates to the low 32 bits.
* Rust `todo!()` / `unwrap` aborts are modelled by an explicit `panic`
  outcome, kept distinct from `Result::Err` values.
* Mutation is modelled by explicit state passing; operations that mutate
  `self` before failing return the mutated state next to the error.
-/

set_option autoImplicit false

namespace GoForth

/-- Two's-complement wrapping of an integer into the `i32` range
`[-2^31, 2^31)`; models release-build `i32` arithmetic. -/
def wrap32 (x : Int) : Int :=
  (x + 2 ^ 31) % 2 ^ 32 - 2 ^ 31

/-- The Rust cast `i32 as usize` on a 64-bit target: sign-extension,
i.e. reduction modulo `2^64` into `[0, 2^64)`. -/
def i32AsUsize (v : Int) : Nat :=
  (v % 2 ^ 64).toNat

/-- The Rust cast `usize as i32` on a 64-bit target: keep the low 32 bits,
reinterpreted as two's complement. -/
def usizeAsI32 (n : Nat) : Int :=
  wrap32 n

/-- Smallest `i32` value. -/
def i32Min : Int := -(2 ^ 31)

/-- Largest `i32` value. -/
def i32Max : Int := 2 ^ 31 - 1

/-- Membership of the `i32` range. -/
def isI32 (v : Int) : Prop := i32Min ≤ v ∧ v ≤ i32Max

instance (v : Int) : Decidable (isI32 v) := by
  unfold isI32; infer_instance

/-! ## src/stack.rs -/

/-- `StackErr` from src/stack.rs. -/
inductive StackErr where
  | Overflow
  | Underflow
deriving DecidableEq, Repr

/-- `Stack<Data>` from src/stack.rs: a capacity-bounded `Vec`, bottom of
the stack at the head of `data`, top at the end (matching `Vec::push`). -/
structure Stack (α : Type) where
  data : List α
  capacity : Nat
deriving DecidableEq, Repr

namespace Stack

/-- `Stack::new`. -/
def new (α : Type) (capacity : Nat) : Stack α :=
  { capacity := capacity, data := [] }

/-- `Stack::push`: appends if `len < capacity`, else `Err(Overflow)`
(the stack is untouched on failure). -/
def push {α : Type} (s : Stack α) (x : α) : Except StackErr (Stack α) :=
  if s.data.length < s.capacity then
    .ok { s with data := s.data ++ [x] }
  else
    .error .Overflow

/-- `Stack::pop`: `Vec::pop` removes and returns the last element, else
`Err(Underflow)`. -/
def pop {α : Type} (s : Stack α) : Except StackErr (α × Stack α) :=
  match s.data.getLast? with
  | some d => .ok (d, { s with data := s.data.dropLast })
  | none => .error .Underflow

/-- `Stack::clear`. -/
def clear {α : Type} (s : Stack α) : Stack α :=
  { s with data := [] }

end Stack

/-! ## src/dictionary.rs -/

/-- `DictionaryErr` from src/dictionary.rs. -/
inductive DictionaryErr where
  | Overflow
  | UndefinedAccess
deriving DecidableEq, Repr

/-- `Dictionary<Key, Value>` from src/dictionary.rs: an ordered,
capacity-bounded `Vec` of `(Option<Key>, Value)` slots; an entry's
address is its position. -/
structure Dictionary (Key Value : Type) where
  capacity : Nat
  data : List (Option Key × Value)

namespace Dictionary

variable {Key Value : Type} [DecidableEq Key]

/-- `Dictionary::new`. -/
def new (Key Value : Type) (capacity : Nat) : Dictionary Key Value :=
  { capacity := capacity, data := [] }

/-- The removal loop at the start of `Dictionary::insert`: scan from the
front, `Vec::remove` the first entry whose (present) key equals `key`,
then `break`. -/
def removeFirst (key : Key) : List (Option Key × Value) → List (Option Key × Value)
  | [] => []
  | (storedKey, value) :: rest =>
    if storedKey = some key then rest
    else (storedKey, value) :: removeFirst key rest

/-- `Dictionary::insert`: remove the first same-named entry, then append
at the end unless the post-removal length already equals the capacity.
The state is returned alongside the result because in the source the
removal has already mutated `self.data` when `Err(Overflow)` is returned. -/
def insert (d : Dictionary Key Value) (key : Option Key) (value : Value) :
    Dictionary Key Value × Except DictionaryErr Nat :=
  let data' :=
    match key with
    | some k => removeFirst k d.data
    | none => d.data
  let addr := data'.length
  if addr = d.capacity then
    ({ d with data := data' }, .error .Overflow)
  else
    ({ d with data := data' ++ [(key, value)] }, .ok addr)

/-- `Dictionary::get_addr`: index of the first entry whose (present) key
equals `key`. -/
def getAddrAux (key : Key) : List (Option Key × Value) → Nat → Option Nat
  | [], _ => none
  | (storedKey, _) :: rest, i =>
    if storedKey = some key then some i else getAddrAux key rest (i + 1)

/-- `Dictionary::get_addr`. -/
def get_addr (d : Dictionary Key Value) (key : Key) : Option Nat :=
  getAddrAux key d.data 0

/-- `Dictionary::set_from_addr`: overwrite the value (the key is kept) at
`addr` when in range, else `Err(UndefinedAccess)` with `self` untouched. -/
def set_from_addr (d : Dictionary Key Value) (addr : Nat) (value : Value) :
    Dictionary Key Value × Option DictionaryErr :=
  match d.data.get? addr with
  | some (storedKey, _) =>
    ({ d with data := d.data.set addr (storedKey, value) }, none)
  | none => (d, some .UndefinedAccess)

/-- `Dictionary::get_from_addr`: positional read, `None` when out of range. -/
def get_from_addr (d : Dictionary Key Value) (addr : Nat) :
    Option (Option Key × Value) :=
  d.data.get? addr

/-- Scan loop of `Dictionary::get`. -/
def getAux (key : Key) : List (Option Key × Value) → Option Value
  | [] => none
  | (storedKey, value) :: rest =>
    if storedKey = some key then some value else getAux key rest

/-- `Dictionary::get`: value of the first entry whose (present) key equals
`key`. -/
def get (d : Dictionary Key Value) (key : Key) : Option Value :=
  getAux key d.data

/-- `Dictionary::clear`. -/
def clear (d : Dictionary Key Value) : Dictionary Key Value :=
  { d with data := [] }

end Dictionary

/-! ## src/id.rs -/

/-- `ID_SIZE` from src/id.rs. -/
def ID_SIZE : Nat := 16

/-- The `id` function of src/id.rs: an `[char; 16]` filled with
`char::default()` (`'\0'`), then overwritten position by position with the
first 16 characters of `s`. -/
def idChars (cs : List Char) : List Char :=
  let taken := cs.take ID_SIZE
  taken ++ List.replicate (ID_SIZE - taken.length) (Char.ofNat 0)

/-- `Id` from src/id.rs; equality is elementwise equality of the
16-character arrays. -/
structure Id where
  id : List Char
deriving DecidableEq, Repr

/-- `Id::from(&str)` acting on the character list of the string. -/
def Id.ofChars (cs : List Char) : Id :=
  { id := idChars cs }

/-- `Id::from(&str)`. -/
def Id.ofStr (s : String) : Id :=
  Id.ofChars s.toList

/-! ## src/context.rs -/

/-- `Mode` from src/context.rs. -/
inductive Mode where
  | Interpreting
  | Compiling
deriving DecidableEq, Repr

/-- `Return` from src/context.rs. -/
inductive Return where
  | Ok
  | Yielding
  | Shutdown
deriving DecidableEq, Repr

/-- `ContextErr` from src/context.rs. The payload of `Parse`
(`std::num::ParseIntError`) carries no information the engine inspects and
is dropped. -/
inductive ContextErr where
  | StackErr (e : StackErr)
  | DivideByZero
  | Parse
  | DictionaryErr (e : DictionaryErr)
  | AccessedUndefinedAtAddr (addr : Nat)
deriving DecidableEq, Repr

/-- The twelve builtin procedures registered by `Context::set_primitives`,
defunctionalised: each constructor stands for the boxed closure installed
under the corresponding dictionary name, and `runBuiltin` gives each its
meaning. -/
inductive BuiltinOp where
  | doesGt   -- "does>"
  | create   -- "create"
  | drop     -- "drop"
  | print    -- "print"
  | store    -- "!"
  | dict     -- "dict"
  | fetch    -- "@"
  | sub      -- "-"
  | add      -- "+"
  | mul      -- "*"
  | div      -- "/"
  | dup      -- "dup"
deriving DecidableEq, Repr

/-- `Word` from src/context.rs. `Builtin` holds a defunctionalised
procedure; `Custom` holds the body sub-words (an `[Rc<Word>; 13]` in the
source — no code path ever constructs one); `Data` holds a `Datum = i32`. -/
inductive Word where
  | Builtin (op : BuiltinOp)
  | Custom (body : List Word)
  | Data (d : Int)

/-- `Fsm` from src/context.rs. -/
inductive Fsm where
  | Execute
  | GetVariable
deriving DecidableEq, Repr

/-- `Context` from src/context.rs. -/
structure Context where
  stack : Stack Int
  mode : Mode
  dictionary : Dictionary Id Word
  fsm : Fsm

/-- Outcome of running one procedure (`Result<(), ContextErr>` in the
source, plus a `panic` outcome for `todo!()` and arithmetic aborts). -/
inductive PRes where
  | ok
  | err (e : ContextErr)
  | panic
deriving DecidableEq, Repr

/-- Outcome of `Context::eval` (`Result<Return, ContextErr>`, plus
`panic` for `todo!()` and arithmetic aborts). -/
inductive EvalOut where
  | ok (r : Return)
  | err (e : ContextErr)
  | panic
deriving DecidableEq, Repr

/-- Pop helper: thread the stack of `ctx` through `Stack::pop`, converting
the error as the `?` operator does. -/
def ctxPop (ctx : Context) : Except ContextErr (Int × Context) :=
  match ctx.stack.pop with
  | .error e => .error (.StackErr e)
  | .ok (v, s) => .ok (v, { ctx with stack := s })

/-- Push helper: thread the stack of `ctx` through `Stack::push`,
converting the error as the `?` operator does. -/
def ctxPush (ctx : Context) (v : Int) : Except ContextErr Context :=
  match ctx.stack.push v with
  | .error e => .error (.StackErr e)
  | .ok s => .ok { ctx with stack := s }

/-- The twelve builtin closures of `Context::set_primitives`, one match arm
per closure, in source order. `println!` output is not modelled. `i32`
division overflow (`i32::MIN / -1`) aborts in Rust in every build profile
and is a `panic` outcome; `+`, `-`, `*` wrap (release semantics). -/
def runBuiltin (op : BuiltinOp) (ctx : Context) : Context × PRes :=
  match op with
  | .doesGt => (ctx, .panic)  -- todo!()
  | .create => (ctx, .panic)  -- todo!()
  | .drop =>
    match ctxPop ctx with
    | .error e => (ctx, .err e)
    | .ok (_, ctx) => (ctx, .ok)
  | .print =>
    match ctxPop ctx with
    | .error e => (ctx, .err e)
    | .ok (val, ctx) =>
      match ctxPush ctx val with
      | .error e => (ctx, .err e)
      | .ok ctx => (ctx, .ok)
  | .store =>
    match ctxPop ctx with
    | .error e => (ctx, .err e)
    | .ok (addr, ctx) =>
      match ctxPop ctx with
      | .error e => (ctx, .err e)
      | .ok (x, ctx) =>
        match ctx.dictionary.set_from_addr (i32AsUsize addr) (Word.Data x) with
        | (d, some e) => ({ ctx with dictionary := d }, .err (.DictionaryErr e))
        | (d, none) => ({ ctx with dictionary := d }, .ok)
  | .dict => (ctx, .ok)  -- printing only
  | .fetch =>
    match ctxPop ctx with
    | .error e => (ctx, .err e)
    | .ok (aAddr, ctx) =>
      match ctx.dictionary.get_from_addr (i32AsUsize aAddr) with
      | some (key, value) =>
        match value with
        | .Data i =>
          match ctxPush ctx i with
          | .error e => (ctx, .err e)
          | .ok ctx => (ctx, .ok)
        | _ =>
          match key with
          | some k =>
            match ctx.dictionary.get_addr k with
            | some addr =>
              match ctxPush ctx (usizeAsI32 addr) with
              | .error e => (ctx, .err e)
              | .ok ctx => (ctx, .ok)
            | none => (ctx, .panic)  -- todo!("Attempted to get key that didn't exist.")
          | none => (ctx, .panic)  -- found = false: same todo!()
      | none => (ctx, .err (.AccessedUndefinedAtAddr (i32AsUsize aAddr)))
  | .sub =>
    match ctxPop ctx with
    | .error e => (ctx, .err e)
    | .ok (n1, ctx) =>
      match ctxPop ctx with
      | .error e => (ctx, .err e)
      | .ok (n2, ctx) =>
        match ctxPush ctx (wrap32 (n1 - n2)) with
        | .error e => (ctx, .err e)
        | .ok ctx => (ctx, .ok)
  | .add =>
    match ctxPop ctx with
    | .error e => (ctx, .err e)
    | .ok (n1, ctx) =>
      match ctxPop ctx with
      | .error e => (ctx, .err e)
      | .ok (n2, ctx) =>
        match ctxPush ctx (wrap32 (n1 + n2)) with
        | .error e => (ctx, .err e)
        | .ok ctx => (ctx, .ok)
  | .mul =>
    match ctxPop ctx with
    | .error e => (ctx, .err e)
    | .ok (n1, ctx) =>
      match ctxPop ctx with
      | .error e => (ctx, .err e)
      | .ok (n2, ctx) =>
        match ctxPush ctx (wrap32 (n1 * n2)) with
        | .error e => (ctx, .err e)
        | .ok ctx => (ctx, .ok)
  | .div =>
    match ctxPop ctx with
    | .error e => (ctx, .err e)
    | .ok (n1, ctx) =>
      match ctxPop ctx with
      | .error e => (ctx, .err e)
      | .ok (n2, ctx) =>
        if n2 = 0 then (ctx, .err .DivideByZero)
        else if n1 = i32Min ∧ n2 = -1 then (ctx, .panic)  -- i32 division overflow aborts
        else
          match ctxPush ctx (Int.tdiv n1 n2) with
          | .error e => (ctx, .err e)
          | .ok ctx => (ctx, .ok)
  | .dup =>
    match ctxPop ctx with
    | .error e => (ctx, .err e)
    | .ok (n, ctx) =>
      match ctxPush ctx n with
      | .error e => (ctx, .err e)
      | .ok ctx =>
        match ctxPush ctx n with
        | .error e => (ctx, .err e)
        | .ok ctx => (ctx, .ok)

/-- `Context::run_word`. A `Data` word pushes its literal; a `Builtin` word
runs its procedure. In the source a `Custom` word runs its sub-words and
then falls into an unconditional `todo!()`; since no code path constructs a
`Custom` word (only `Builtin` and `Data` values are ever created), that
unreachable arm is modelled by its guaranteed final outcome, a panic. -/
def runWord (ctx : Context) : Word → Context × PRes
  | .Builtin op => runBuiltin op ctx
  | .Data lit =>
    match ctxPush ctx lit with
    | .error e => (ctx, .err e)
    | .ok ctx => (ctx, .ok)
  | .Custom _ => (ctx, .panic)

/-- `Context::find_word`: dictionary lookup of the token. -/
def findWord (ctx : Context) (word : List Char) : Option Word :=
  ctx.dictionary.get (Id.ofChars word)

/-- Digit accumulation for `str::parse::<i32>`. -/
def parseDigitsAux : List Char → Nat → Option Nat
  | [], acc => some acc
  | c :: cs, acc =>
    if '0' ≤ c ∧ c ≤ '9' then
      parseDigitsAux cs (acc * 10 + (c.toNat - '0'.toNat))
    else
      none

/-- `str::parse::<i32>` (used by `Context::convert_to_number`): an optional
leading sign, then one or more ASCII digits, with the value required to fit
in `i32` (overflow is a `ParseIntError` like any other parse failure). -/
def parseI32 (cs : List Char) : Option Int :=
  let signDigits : Int × List Char :=
    match cs with
    | '+' :: rest => (1, rest)
    | '-' :: rest => (-1, rest)
    | rest => (1, rest)
  match signDigits.2 with
  | [] => none
  | digits =>
    match parseDigitsAux digits 0 with
    | none => none
    | some n =>
      let v : Int := signDigits.1 * n
      if i32Min ≤ v ∧ v ≤ i32Max then some v else none

/-- Whitespace splitter of `str::split_whitespace`, on the character list
(for the ASCII whitespace that can occur in the evaluated lines). -/
def splitWsAux : List Char → List Char → List (List Char)
  | [], acc => if acc = [] then [] else [acc.reverse]
  | c :: cs, acc =>
    if c.isWhitespace then
      if acc = [] then splitWsAux cs []
      else acc.reverse :: splitWsAux cs []
    else
      splitWsAux cs (c :: acc)

/-- Tokenisation of one input line. -/
def tokenize (line : String) : List (List Char) :=
  splitWsAux line.toList []

/-- The token loop of `Context::eval`, processing the token list strictly
left to right and carrying the FSM across tokens. `yield` hits a `todo!()`
(the `return Ok(Return::Yielding)` after it is unreachable), and a word
resolved under `Mode::Compiling` hits a `todo!()`. -/
def evalTokens : Context → List (List Char) → Context × EvalOut
  | ctx, [] => (ctx, .ok .Ok)
  | ctx, tok :: rest =>
    match ctx.fsm with
    | .Execute =>
      if tok = "bye".toList then (ctx, .ok .Shutdown)
      else if tok = "yield".toList then (ctx, .panic)
      else if tok = "var".toList then
        evalTokens { ctx with fsm := .GetVariable } rest
      else
        let resolved : Except ContextErr Word :=
          match findWord ctx tok with
          | some word => .ok word
          | none =>
            match parseI32 tok with
            | some i => .ok (.Data i)
            | none => .error .Parse
        match resolved with
        | .error e => (ctx, .err e)
        | .ok word =>
          match ctx.mode with
          | .Interpreting =>
            match runWord ctx word with
            | (ctx, .ok) => evalTokens ctx rest
            | (ctx, .err e) => (ctx, .err e)
            | (ctx, .panic) => (ctx, .panic)
          | .Compiling => (ctx, .panic)
    | .GetVariable =>
      match ctx.dictionary.insert none (Word.Data 0) with
      | (d, .error e) => ({ ctx with dictionary := d }, .err (.DictionaryErr e))
      | (d, .ok addr) =>
        let ctx := { ctx with dictionary := d }
        match ctx.dictionary.insert (some (Id.ofChars tok)) (Word.Data (usizeAsI32 addr)) with
        | (d, .error e) => ({ ctx with dictionary := d }, .err (.DictionaryErr e))
        | (d, .ok _) =>
          evalTokens { ctx with dictionary := d, fsm := .Execute } rest

/-- `Context::eval`. -/
def Context.eval (ctx : Context) (line : String) : Context × EvalOut :=
  evalTokens ctx (tokenize line)

/-- The builtin words of `Context::set_primitives`, in registration order. -/
def primitives : List (String × BuiltinOp) :=
  [("does>", .doesGt), ("create", .create), ("drop", .drop), ("print", .print),
   ("!", .store), ("dict", .dict), ("@", .fetch), ("-", .sub), ("+", .add),
   ("*", .mul), ("/", .div), ("dup", .dup)]

/-- The insert chain of `Context::set_primitives`, propagating the first
`DictionaryErr` as the `?` operator does. -/
def insertPrims :
    Dictionary Id Word → List (String × BuiltinOp) →
    Dictionary Id Word × Option DictionaryErr
  | d, [] => (d, none)
  | d, (name, op) :: rest =>
    match d.insert (some (Id.ofStr name)) (Word.Builtin op) with
    | (d, .ok _) => insertPrims d rest
    | (d, .error e) => (d, some e)

/-- `Context::reset`: clear both structures, restore `Execute` and
`Interpreting`, re-register the builtins. The `Option DictionaryErr`
component is the error the source would `unwrap` (a panic); it is `none`
whenever the dictionary capacity is at least 12. -/
def Context.reset (ctx : Context) : Context × Option DictionaryErr :=
  let d := ctx.dictionary.clear
  let s := ctx.stack.clear
  let prims := insertPrims d primitives
  ({ fsm := .Execute, dictionary := prims.1, stack := s, mode := .Interpreting },
   prims.2)

/-- `Context::new`. -/
def Context.new (stackCapacity dictionaryCapacity : Nat) : Context :=
  (Context.reset
    { fsm := .Execute
      stack := Stack.new Int stackCapacity
      mode := .Interpreting
      dictionary := Dictionary.new Id Word dictionaryCapacity }).1

/-! ## Helper lemmas -/

/-- Popping a stack whose data ends in `x` returns `x` and drops it. -/
theorem Stack.pop_concat {α : Type} (s : Stack α) (l : List α) (x : α)
    (h : s.data = l ++ [x]) : s.pop = .ok (x, { s with data := l }) := by
  simp [Stack.pop, h, List.getLast?_concat, List.dropLast_concat]

/-- Pushing onto a stack with room appends at the end. -/
theorem Stack.push_of_room {α : Type} (s : Stack α) (x : α)
    (h : s.data.length < s.capacity) :
    s.push x = .ok { s with data := s.data ++ [x] } := by
  simp [Stack.push, h]

/-- `wrap32` is the identity on the `i32` range. -/
theorem wrap32_eq_self {x : Int} (h1 : i32Min ≤ x) (h2 : x ≤ i32Max) :
    wrap32 x = x := by
  unfold wrap32
  unfold i32Min at h1
  unfold i32Max at h2
  omega

/-- The sign-extending cast of a negative `i32` lands in the top `2^31`
values of the `usize` range. -/
theorem i32AsUsize_of_neg {v : Int} (hneg : v < 0) (hge : i32Min ≤ v) :
    2 ^ 64 - 2 ^ 31 ≤ i32AsUsize v := by
  unfold i32AsUsize
  unfold i32Min at hge
  omega

/-- The removal loop of `insert` on a list whose first `key`-named entry is
exhibited: everything before it is kept, the entry goes, everything after
it moves down one position. -/
theorem Dictionary.removeFirst_append {Key Value : Type} [DecidableEq Key]
    (key : Key) (pre post : List (Option Key × Value)) (v : Value)
    (hpre : ∀ e ∈ pre, e.1 ≠ some key) :
    Dictionary.removeFirst key (pre ++ (some key, v) :: post) = pre ++ post := by
  induction pre with
  | nil => simp [Dictionary.removeFirst]
  | cons e pre ih =>
    obtain ⟨storedKey, w⟩ := e
    have h1 : storedKey ≠ some key := hpre (storedKey, w) (by simp)
    simp only [List.cons_append, Dictionary.removeFirst, if_neg h1, List.cons.injEq,
      true_and]
    exact ih (fun e he => hpre e (List.mem_cons_of_mem _ he))

/-- The removal loop either finds nothing (list unchanged) or removes
exactly one entry. -/
theorem Dictionary.removeFirst_eq_or_shorter {Key Value : Type} [DecidableEq Key]
    (key : Key) (data : List (Option Key × Value)) :
    Dictionary.removeFirst key data = data ∨
      (Dictionary.removeFirst key data).length + 1 = data.length := by
  induction data with
  | nil => left; rfl
  | cons e rest ih =>
    obtain ⟨storedKey, w⟩ := e
    by_cases h : storedKey = some key
    · right; simp [Dictionary.removeFirst, h]
    · rcases ih with ih | ih
      · left; simp [Dictionary.removeFirst, h, ih]
      · right; simp [Dictionary.removeFirst, h]; omega

/-! ## Claims -/

/-- C7: for every stack state, `push` appends the value exactly when the
current length is less than the capacity and otherwise fails with
`Overflow` leaving the stack unchanged; `pop` removes and returns the
most-recently pushed value exactly when the stack is non-empty and
otherwise fails with `Underflow`. -/
theorem stack_push_appends_and_pop_removes_last (cap : Nat) (l : List Int) (x : Int) :
    (l.length < cap →
      Stack.push ⟨l, cap⟩ x = .ok ⟨l ++ [x], cap⟩)
    ∧ (cap ≤ l.length →
      Stack.push ⟨l, cap⟩ x = .error .Overflow)
    ∧ Stack.pop ⟨l ++ [x], cap⟩ = .ok (x, ⟨l, cap⟩)
    ∧ Stack.pop (⟨[], cap⟩ : Stack Int) = .error .Underflow := by
  refine ⟨fun h => ?_, fun h => ?_, ?_, ?_⟩
  · simp [Stack.push, h]
  · simp [Stack.push, Nat.not_lt.mpr h]
  · exact Stack.pop_concat _ l x rfl
  · simp [Stack.pop]

/-- Witness for `stack_push_appends_and_pop_removes_last` at concrete
inputs. -/
theorem stack_push_appends_and_pop_removes_last_witness :
    Stack.push (⟨[5], 2⟩ : Stack Int) 7 = .ok ⟨[5, 7], 2⟩
    ∧ Stack.push (⟨[5], 1⟩ : Stack Int) 7 = .error .Overflow
    ∧ Stack.pop (⟨[5, 7], 2⟩ : Stack Int) = .ok (7, ⟨[5], 2⟩)
    ∧ Stack.pop (⟨[], 2⟩ : Stack Int) = .error .Underflow :=
  ⟨(stack_push_appends_and_pop_removes_last 2 [5] 7).1 (by decide),
   (stack_push_appends_and_pop_removes_last 1 [5] 7).2.1 (by decide),
   (stack_push_appends_and_pop_removes_last 2 [5] 7).2.2.1,
   (stack_push_appends_and_pop_removes_last 2 [] 7).2.2.2⟩

/-- C5: inserting under a name already present removes the first entry of
that name (every later entry moves down one address) and appends the new
entry at the new end, which therefore receives the last address. -/
theorem insert_existing_name_removes_then_appends (cap : Nat)
    (pre post : List (Option Id × Word)) (key : Id) (v w : Word)
    (hpre : ∀ e ∈ pre, e.1 ≠ some key)
    (hlen : (pre ++ (some key, v) :: post).length ≤ cap) :
    Dictionary.insert ⟨cap, pre ++ (some key, v) :: post⟩ (some key) w
      = (⟨cap, (pre ++ post) ++ [(some key, w)]⟩, .ok (pre.length + post.length)) := by
  have hrm := Dictionary.removeFirst_append key pre post v hpre
  have hne : pre.length + post.length ≠ cap := by
    simp only [List.length_append, List.length_cons] at hlen
    omega
  simp only [Dictionary.insert, hrm, List.length_append, if_neg hne]

/-- Witness for `insert_existing_name_removes_then_appends` at a concrete
dictionary. -/
theorem insert_existing_name_removes_then_appends_witness :
    Dictionary.insert
        ⟨3, [(some (Id.ofStr "a"), Word.Data 1), (some (Id.ofStr "b"), Word.Data 2),
             (none, Word.Data 3)]⟩
        (some (Id.ofStr "b")) (Word.Data 9)
      = (⟨3, [(some (Id.ofStr "a"), Word.Data 1), (none, Word.Data 3),
              (some (Id.ofStr "b"), Word.Data 9)]⟩, .ok 2) :=
  insert_existing_name_removes_then_appends 3
    [(some (Id.ofStr "a"), Word.Data 1)] [(none, Word.Data 3)]
    (Id.ofStr "b") (Word.Data 2) (Word.Data 9) (by decide) (by decide)

/-- C8: when `insert` fails with `Overflow`, the stored entries are exactly
what they were before the call (for any dictionary satisfying the
representation invariant `length ≤ capacity`, which every dictionary
constructed through the module's operations satisfies). -/
theorem insert_overflow_leaves_dictionary_unchanged (cap : Nat)
    (data : List (Option Id × Word)) (key : Option Id) (w : Word)
    (hinv : data.length ≤ cap)
    (hov : (Dictionary.insert ⟨cap, data⟩ key w).2 = .error .Overflow) :
    (Dictionary.insert ⟨cap, data⟩ key w).1 = ⟨cap, data⟩ := by
  match key with
  | none =>
    simp only [Dictionary.insert] at hov ⊢
    by_cases h : data.length = cap
    · simp [h]
    · simp [h] at hov
  | some k =>
    simp only [Dictionary.insert] at hov ⊢
    by_cases h : (Dictionary.removeFirst k data).length = cap
    · rcases Dictionary.removeFirst_eq_or_shorter k data with heq | hshort
      · rw [heq] at h ⊢
        simp [h]
      · omega
    · simp [h] at hov

/-- Witness for `insert_overflow_leaves_dictionary_unchanged` at a
concrete full dictionary. -/
theorem insert_overflow_leaves_dictionary_unchanged_witness :
    (Dictionary.insert ⟨1, [(some (Id.ofStr "a"), Word.Data 1)]⟩
        (some (Id.ofStr "b")) (Word.Data 2)).1
      = ⟨1, [(some (Id.ofStr "a"), Word.Data 1)]⟩ :=
  insert_overflow_leaves_dictionary_unchanged 1
    [(some (Id.ofStr "a"), Word.Data 1)] (some (Id.ofStr "b")) (Word.Data 2)
    (by decide) (by rfl)

/-- C9: identifier construction truncates a name to its first 16
characters (padding shorter names with the default character), so any two
names agreeing on their first 16 characters yield equal identifiers, and
the dictionary operations keyed on identifiers treat them as the same
key. -/
theorem id_truncates_names_to_sixteen_chars (s t : String)
    (h : s.toList.take 16 = t.toList.take 16) :
    Id.ofStr s = Id.ofStr t
    ∧ (∀ d : Dictionary Id Word,
        d.get (Id.ofStr s) = d.get (Id.ofStr t)
        ∧ d.get_addr (Id.ofStr s) = d.get_addr (Id.ofStr t)
        ∧ ∀ w : Word, d.insert (some (Id.ofStr s)) w = d.insert (some (Id.ofStr t)) w)
    ∧ (s.toList.length ≤ 16 →
        (Id.ofStr s).id = s.toList ++ List.replicate (16 - s.toList.length) (Char.ofNat 0)) := by
  have hid : Id.ofStr s = Id.ofStr t := by
    simp only [Id.ofStr, Id.ofChars, idChars, ID_SIZE, h]
  refine ⟨hid, fun d => ⟨by rw [hid], by rw [hid], fun w => by rw [hid]⟩, fun hlen => ?_⟩
  simp only [Id.ofStr, Id.ofChars, idChars, ID_SIZE, List.take_of_length_le hlen]

/-- Witness for `id_truncates_names_to_sixteen_chars`: a 20-character name
collides with its own 16-character truncation. -/
theorem id_truncates_names_to_sixteen_chars_witness :
    Id.ofStr "averylongvariablename" = Id.ofStr "averylongvariabl" :=
  (id_truncates_names_to_sixteen_chars "averylongvariablename" "averylongvariabl"
    (by decide)).1

/-- C1: the claim says the token `variable` (the longer standard spelling
of `var`) declares a variable, so that evaluating
`"variable balance 123 balance ! balance @"` succeeds and leaves 123 on
top of the stack — as the repository's own test `variable` (context.rs)
asserts. The code recognises only `var`: on a fresh engine the `variable`
line fails with a numeral-parse error and leaves the stack empty, while
the same line spelled with `var` behaves exactly as the claim describes. -/
theorem variable_spelling_rejected_but_var_line_leaves_123 :
    (Context.eval (Context.new 333 343) "variable balance 123 balance ! balance @").2
      = .err .Parse
    ∧ (Context.eval (Context.new 333 343) "variable balance 123 balance ! balance @").1.stack.data
      = []
    ∧ (Context.eval (Context.new 333 343) "var balance 123 balance ! balance @").2
      = .ok .Ok
    ∧ (Context.eval (Context.new 333 343) "var balance 123 balance ! balance @").1.stack.data
      = [123] := by
  decide

/-- C2: the claim says `eval` always terminates with an explicit `Result`
and that `yield`, `create`, `does>` and `Compiling`-mode evaluation report
an explicit "not supported" condition. In the code all four paths hit
`todo!()`, an uncatchable abort (and `ContextErr` has no unsupported
variant at all): each evaluation below panics instead of returning a
`Result`. -/
theorem stub_paths_panic_instead_of_returning_result :
    (Context.eval (Context.new 333 343) "yield").2 = .panic
    ∧ (Context.eval (Context.new 333 343) "create").2 = .panic
    ∧ (Context.eval (Context.new 333 343) "does>").2 = .panic
    ∧ (Context.eval { Context.new 333 343 with mode := .Compiling } "1").2 = .panic := by
  decide

/-- C3, counterexample to the unrestricted claim: with `-1` pushed first
(`next`) and `-2147483648 = i32::MIN` on top, the divisor check passes
(`next = -1 ≠ 0`) yet the code does not push the quotient `2^31` — the
`i32` division itself overflows and Rust aborts (in every build profile),
so evaluation panics with both operands consumed and nothing pushed. -/
theorem div_overflow_input_panics :
    (Context.eval (Context.new 333 343) "-1 -2147483648 /").2 = .panic
    ∧ (Context.eval (Context.new 333 343) "-1 -2147483648 /").1.stack.data = [] := by
  decide

/-- C3, amended: for operands `a`, `b` pushed in that order, `/` pops
`top = b` then `next = a` and — when the divisor check passes and the
division itself does not overflow (not both `top = -2^31` and
`next = -1`) — pushes the truncating quotient of top divided by next;
`"4 7 /"` leaves 1 and `"3 -9 /"` leaves -3. -/
theorem div_pushes_quotient_of_top_by_next (ctx : Context) (l : List Int) (a b : Int)
    (hdata : ctx.stack.data = l ++ [a, b])
    (hcap : ctx.stack.data.length ≤ ctx.stack.capacity)
    (ha : a ≠ 0)
    (hnov : ¬(b = i32Min ∧ a = -1)) :
    runBuiltin .div ctx
      = ({ ctx with stack := { ctx.stack with data := l ++ [Int.tdiv b a] } }, .ok)
    ∧ (Context.eval (Context.new 333 343) "4 7 /").2 = .ok .Ok
    ∧ (Context.eval (Context.new 333 343) "4 7 /").1.stack.data = [1]
    ∧ (Context.eval (Context.new 333 343) "3 -9 /").2 = .ok .Ok
    ∧ (Context.eval (Context.new 333 343) "3 -9 /").1.stack.data = [-3] := by
  refine ⟨?_, by decide, by decide, by decide, by decide⟩
  have hd' : ctx.stack.data = (l ++ [a]) ++ [b] := by
    simpa [List.append_assoc] using hdata
  have h1 := Stack.pop_concat ctx.stack (l ++ [a]) b hd'
  have h2 := Stack.pop_concat ({ ctx.stack with data := l ++ [a] }) l a rfl
  have hroom : l.length < ctx.stack.capacity := by
    rw [hdata] at hcap
    simp only [List.length_append, List.length_cons] at hcap
    omega
  have h3 := Stack.push_of_room ({ ctx.stack with data := l }) (Int.tdiv b a)
    (by simpa using hroom)
  simp only [runBuiltin, ctxPop, ctxPush, h1, h2, h3, if_neg ha, if_neg hnov]

/-- Witness for `div_pushes_quotient_of_top_by_next` at a concrete state. -/
theorem div_pushes_quotient_of_top_by_next_witness :
    runBuiltin .div
        { stack := ⟨[4, 7], 10⟩, mode := .Interpreting,
          dictionary := ⟨0, []⟩, fsm := .Execute }
      = ({ stack := ⟨[1], 10⟩, mode := .Interpreting,
           dictionary := ⟨0, []⟩, fsm := .Execute }, .ok) := by
  have h := (div_pushes_quotient_of_top_by_next
    { stack := ⟨[4, 7], 10⟩, mode := .Interpreting,
      dictionary := ⟨0, []⟩, fsm := .Execute }
    [] 4 7 rfl (by decide) (by decide) (by decide)).1
  simpa using h

/-- C4: with a stack holding exactly `[a, b]` where `b` is on top and the
second-popped operand is `a = 0`, `/` fails with `DivideByZero` and both
operands have already been removed: the stack is left empty. The spec's
example `"0 -9 /"` does exactly this. -/
theorem div_by_zero_fails_after_both_pops (ctx : Context) (b : Int)
    (hdata : ctx.stack.data = [0, b]) :
    runBuiltin .div ctx
      = ({ ctx with stack := { ctx.stack with data := [] } }, .err .DivideByZero)
    ∧ (Context.eval (Context.new 333 343) "0 -9 /").2 = .err .DivideByZero
    ∧ (Context.eval (Context.new 333 343) "0 -9 /").1.stack.data = [] := by
  refine ⟨?_, by decide, by decide⟩
  have hd' : ctx.stack.data = [(0 : Int)] ++ [b] := by simpa using hdata
  have h1 := Stack.pop_concat ctx.stack [(0 : Int)] b hd'
  have h2 := Stack.pop_concat ({ ctx.stack with data := [(0 : Int)] }) [] 0 rfl
  simp only [runBuiltin, ctxPop, h1, h2, if_pos]

/-- Witness for `div_by_zero_fails_after_both_pops` at a concrete state. -/
theorem div_by_zero_fails_after_both_pops_witness :
    runBuiltin .div
        { stack := ⟨[0, -9], 10⟩, mode := .Interpreting,
          dictionary := ⟨0, []⟩, fsm := .Execute }
      = ({ stack := ⟨[], 10⟩, mode := .Interpreting,
           dictionary := ⟨0, []⟩, fsm := .Execute }, .err .DivideByZero) := by
  have h := (div_by_zero_fails_after_both_pops
    { stack := ⟨[0, -9], 10⟩, mode := .Interpreting,
      dictionary := ⟨0, []⟩, fsm := .Execute } (-9) rfl).1
  simpa using h

/-- C6: `-` pops `top = n1` then `next = n2` and pushes the `i32`
difference `n1 - n2` (top minus next, not next minus top; the value pushed
is the two's-complement-wrapped difference, which equals the exact
difference whenever that fits in `i32`); `"1 2 -"` leaves top = 1. -/
theorem sub_pushes_top_minus_next (ctx : Context) (l : List Int) (n1 n2 : Int)
    (hdata : ctx.stack.data = l ++ [n2, n1])
    (hcap : ctx.stack.data.length ≤ ctx.stack.capacity) :
    runBuiltin .sub ctx
      = ({ ctx with stack := { ctx.stack with data := l ++ [wrap32 (n1 - n2)] } }, .ok)
    ∧ (isI32 (n1 - n2) → wrap32 (n1 - n2) = n1 - n2)
    ∧ (Context.eval (Context.new 333 343) "1 2 -").2 = .ok .Ok
    ∧ (Context.eval (Context.new 333 343) "1 2 -").1.stack.data = [1] := by
  refine ⟨?_, fun h => wrap32_eq_self h.1 h.2, by decide, by decide⟩
  have hd' : ctx.stack.data = (l ++ [n2]) ++ [n1] := by
    simpa [List.append_assoc] using hdata
  have h1 := Stack.pop_concat ctx.stack (l ++ [n2]) n1 hd'
  have h2 := Stack.pop_concat ({ ctx.stack with data := l ++ [n2] }) l n2 rfl
  have hroom : l.length < ctx.stack.capacity := by
    rw [hdata] at hcap
    simp only [List.length_append, List.length_cons] at hcap
    omega
  have h3 := Stack.push_of_room ({ ctx.stack with data := l }) (wrap32 (n1 - n2))
    (by simpa using hroom)
  simp only [runBuiltin, ctxPop, ctxPush, h1, h2, h3]

/-- Witness for `sub_pushes_top_minus_next` at a concrete state. -/
theorem sub_pushes_top_minus_next_witness :
    runBuiltin .sub
        { stack := ⟨[1, 2], 10⟩, mode := .Interpreting,
          dictionary := ⟨0, []⟩, fsm := .Execute }
      = ({ stack := ⟨[1], 10⟩, mode := .Interpreting,
           dictionary := ⟨0, []⟩, fsm := .Execute }, .ok)
    ∧ wrap32 (2 - 1) = 2 - 1 := by
  have h := sub_pushes_top_minus_next
    { stack := ⟨[1, 2], 10⟩, mode := .Interpreting,
      dictionary := ⟨0, []⟩, fsm := .Execute }
    [] 2 1 rfl (by decide)
  exact ⟨by simpa using h.1, h.2.1 (by decide)⟩

/-- C10: a negative value popped as an address sign-extends to a `usize`
in the top `2^31` values of the 64-bit range, which exceeds any possible
dictionary length (a `Vec` never holds more than `2^63` elements), so `!`
fails with `DictionaryErr::UndefinedAccess` and `@` fails with
`AccessedUndefinedAtAddr`, and the failed `!` modifies no dictionary
slot. -/
theorem negative_address_store_and_fetch_fail (ctx : Context) (l : List Int) (x v : Int)
    (hneg : v < 0) (hge : i32Min ≤ v)
    (hdictlen : ctx.dictionary.data.length < 2 ^ 63) :
    (ctx.stack.data = l ++ [x, v] →
      runBuiltin .store ctx
        = ({ ctx with stack := { ctx.stack with data := l } },
           .err (.DictionaryErr .UndefinedAccess)))
    ∧ (ctx.stack.data = l ++ [v] →
      runBuiltin .fetch ctx
        = ({ ctx with stack := { ctx.stack with data := l } },
           .err (.AccessedUndefinedAtAddr (i32AsUsize v)))) := by
  have haddr : ctx.dictionary.data.length ≤ i32AsUsize v := by
    have h := i32AsUsize_of_neg hneg hge
    omega
  have hget : ctx.dictionary.data.get? (i32AsUsize v) = none :=
    List.get?_eq_none.mpr haddr
  constructor
  · intro hdata
    have hd' : ctx.stack.data = (l ++ [x]) ++ [v] := by
      simpa [List.append_assoc] using hdata
    have h1 := Stack.pop_concat ctx.stack (l ++ [x]) v hd'
    have h2 := Stack.pop_concat ({ ctx.stack with data := l ++ [x] }) l x rfl
    simp only [runBuiltin, ctxPop, h1, h2, Dictionary.set_from_addr, hget]
  · intro hdata
    have h1 := Stack.pop_concat ctx.stack l v hdata
    simp only [runBuiltin, ctxPop, h1, Dictionary.get_from_addr, hget]

/-- Witness for `negative_address_store_and_fetch_fail` at concrete
states with `-1` as the address. -/
theorem negative_address_store_and_fetch_fail_witness :
    runBuiltin .store
        { stack := ⟨[9, -1], 10⟩, mode := .Interpreting,
          dictionary := ⟨3, [(none, Word.Data 0)]⟩, fsm := .Execute }
      = ({ stack := ⟨[], 10⟩, mode := .Interpreting,
           dictionary := ⟨3, [(none, Word.Data 0)]⟩, fsm := .Execute },
         .err (.DictionaryErr .UndefinedAccess))
    ∧ runBuiltin .fetch
        { stack := ⟨[-1], 10⟩, mode := .Interpreting,
          dictionary := ⟨3, [(none, Word.Data 0)]⟩, fsm := .Execute }
      = ({ stack := ⟨[], 10⟩, mode := .Interpreting,
           dictionary := ⟨3, [(none, Word.Data 0)]⟩, fsm := .Execute },
         .err (.AccessedUndefinedAtAddr (i32AsUsize (-1)))) := by
  constructor
  · have h := (negative_address_store_and_fetch_fail
      { stack := ⟨[9, -1], 10⟩, mode := .Interpreting,
        dictionary := ⟨3, [(none, Word.Data 0)]⟩, fsm := .Execute }
      [] 9 (-1) (by decide) (by decide) (by decide)).1 rfl
    simpa using h
  · have h := (negative_address_store_and_fetch_fail
      { stack := ⟨[-1], 10⟩, mode := .Interpreting,
        dictionary := ⟨3, [(none, Word.Data 0)]⟩, fsm := .Execute }
      [] 0 (-1) (by decide) (by decide) (by decide)).2 rfl
    simpa using h

end GoForth
